import Mathlib

/-!
Shallow embedding of `watcher.py`, a blue/green deployment log watcher.
Python strings are modelled as `List Char`; wall-clock timestamps and the
floating-point arithmetic on rates/times as exact rationals (`ℚ`). The
`json.loads` parse boundary has three outcomes, modelled by `ParsedLine`:
a line that raises `JSONDecodeError` (caught at line 177 and skipped), a
line holding valid JSON that is not an object (`log_entry.get` then raises
an `AttributeError` that no inner handler catches, so the loop dies), and a
JSON object (a `LogEntry`). `processLines` covers the first and third
outcomes with `Option LogEntry`; `processLinesE` covers all three, with
`Except.error ()` for the uncaught-exception abort.
-/

/-- Configuration read from the environment in `LogWatcher.__init__`
(`ERROR_RATE_THRESHOLD`, `WINDOW_SIZE`, `ALERT_COOLDOWN_SEC`,
`MAINTENANCE_MODE`). -/
structure Config where
  error_threshold : ℚ
  window_size : ℕ
  cooldown_sec : ℚ
  maintenance_mode : Bool
deriving DecidableEq

/-- The two alert types the watcher emits, the `alert_type` strings
`failover` and `error_rate` of `send_slack_alert`. -/
inductive AlertKind where
  | failover
  | error_rate
deriving DecidableEq

/-- An alert together with the detail fields the code puts in the Slack
payload: previous/current pool for a failover, error and total counts for an
error-rate alert. -/
inductive Alert where
  | failover (prev cur : List Char)
  | error_rate (errors total : ℕ)
deriving DecidableEq

/-- The mutable fields of `LogWatcher`: `last_pool` (initially `None`),
`request_window` (a `deque(maxlen=window_size)` of booleans) and the two
last-alert epoch timestamps (initially `0`). -/
structure WatcherState where
  last_pool : Option (List Char)
  request_window : List Bool
  last_failover_alert : ℚ
  last_error_rate_alert : ℚ
deriving DecidableEq

/-- The state after `LogWatcher.__init__`: no pool seen, empty window, both
last-alert timestamps `0`. -/
def initSt : WatcherState := ⟨none, [], 0, 0⟩

/-- One parsed JSON log record, keeping only the two fields the watcher
reads: `log_entry.get('pool', '')` and `log_entry.get('upstream_status', '')`.
`none` stands for an absent field (Python `get` then yields `''`). -/
structure LogEntry where
  pool : Option (List Char)
  upstream_status : Option (List Char)
deriving DecidableEq

/-- `deque(maxlen=cap)` append: the new element goes to the back and, when
the deque already holds `cap` elements, the front element is discarded
(`self.request_window.append(had_error)` at line 171). -/
def pushWindow (cap : ℕ) (w : List Bool) (x : Bool) : List Bool :=
  (w ++ [x]).drop (w.length + 1 - cap)

/-- Number of `True` entries in the window:
`sum(1 for x in self.request_window if x)` at line 124. -/
def countTrue (w : List Bool) : ℕ :=
  (w.filter (fun x => x)).length

/-- The error rate `(errors / total) * 100` computed at line 125, in exact
rational arithmetic. -/
def rateQ (w : List Bool) : ℚ :=
  ((countTrue w : ℚ) / (w.length : ℚ)) * 100

/-- Python whitespace characters stripped by `str.strip()` (ASCII range). -/
def isPySpace (c : Char) : Bool :=
  c == ' ' || c == '\t' || c == '\n' || c == '\r' || c == '\x0b' || c == '\x0c'

/-- Truthiness of `s.strip()` in the generator filter at line 169: true iff
the token has at least one non-whitespace character. -/
def pyStripTruthy (s : List Char) : Bool :=
  s.any (fun c => !(isPySpace c))

/-- `s.startswith('5')` at line 169. -/
def startsWith5 : List Char → Bool
  | '5' :: _ => true
  | _ => false

/-- Python `value.split(', ')` at line 168: left-to-right, non-overlapping
splitting on the two-character literal separator comma-space; an input with
no separator yields the single token `[s]`, and `''` yields `['']`. -/
def pySplitCS : List Char → List (List Char)
  | [] => [[]]
  | [c] => [[c]]
  | c1 :: c2 :: rest =>
    if c1 = ',' ∧ c2 = ' ' then
      [] :: pySplitCS rest
    else
      match pySplitCS (c2 :: rest) with
      | [] => [[c1]]
      | t :: ts => (c1 :: t) :: ts

/-- Whether the two-character separator comma-space occurs in the value. -/
def containsCS : List Char → Bool
  | [] => false
  | [_] => false
  | c1 :: c2 :: rest => (c1 = ',' && c2 = ' ') || containsCS (c2 :: rest)

/-- Lines 165-169 of `tail_log`: `had_error` is `False` for a falsy (empty)
`upstream_status`; otherwise the value is split on comma-space and
`had_error = any(s.startswith('5') for s in statuses if s.strip())`. -/
def hadErrorOf (us : List Char) : Bool :=
  if us = [] then false
  else (pySplitCS us).any (fun s => pyStripTruthy s && startsWith5 s)

/-- `log_entry.get('upstream_status', '')` then the `had_error` computation:
an absent field behaves as the empty string. -/
def hadErrorField (us : Option (List Char)) : Bool :=
  hadErrorOf (us.getD [])

/-- `send_slack_alert` (lines 42-55), stripped of the payload formatting:
maintenance mode suppresses; per-kind cooldown suppresses; otherwise the
kind's last-alert timestamp is set to `now` and the alert is dispatched
(to the webhook, or the log when the webhook is empty). Returns the new
state and whether the alert was dispatched. -/
def sendAlert (cfg : Config) (kind : AlertKind) (now : ℚ) (st : WatcherState) :
    WatcherState × Bool :=
  if cfg.maintenance_mode then (st, false)
  else
    match kind with
    | .failover =>
      if now - st.last_failover_alert < cfg.cooldown_sec then (st, false)
      else ({ st with last_failover_alert := now }, true)
    | .error_rate =>
      if now - st.last_error_rate_alert < cfg.cooldown_sec then (st, false)
      else ({ st with last_error_rate_alert := now }, true)

/-- The last-fired timestamp field of a given alert kind. -/
def lastOf (kind : AlertKind) (st : WatcherState) : ℚ :=
  match kind with
  | .failover => st.last_failover_alert
  | .error_rate => st.last_error_rate_alert

/-- The spec's pure AlertGate decision, extracted from the suppression logic
of `send_slack_alert`: false during maintenance, false while
`now - lastFired < cooldown_sec`, true otherwise. -/
def shouldFire (cfg : Config) (lastFired now : ℚ) : Bool :=
  if cfg.maintenance_mode then false
  else if now - lastFired < cfg.cooldown_sec then false
  else true

/-- Recording a firing: set the kind's last-fired timestamp to `now`, leaving
trackers and the other kind untouched. -/
def recordFiring (kind : AlertKind) (now : ℚ) (st : WatcherState) : WatcherState :=
  match kind with
  | .failover => { st with last_failover_alert := now }
  | .error_rate => { st with last_error_rate_alert := now }

/-- `check_failover` (lines 95-113): a `None` tracked pool is set from the
argument with only a log line; otherwise a non-empty pool different from the
tracked one builds a failover alert, routes it through `send_slack_alert`,
and updates the tracked pool (even when suppressed). Returns the new state,
the candidate alerts, and the dispatched alerts. -/
def check_failover (cfg : Config) (now : ℚ) (pool : List Char) (st : WatcherState) :
    WatcherState × List Alert × List Alert :=
  match st.last_pool with
  | none => ({ st with last_pool := some pool }, [], [])
  | some lp =>
    if pool ≠ [] ∧ pool ≠ lp then
      let cand := Alert.failover lp pool
      let r := sendAlert cfg .failover now st
      ({ r.1 with last_pool := some pool }, [cand], if r.2 then [cand] else [])
    else (st, [], [])

/-- `check_error_rate` (lines 116-137): returns immediately while the window
holds fewer than 20 samples; otherwise computes the rate and, when it
strictly exceeds the threshold, builds an error-rate alert with the error and
total counts and routes it through `send_slack_alert`. -/
def check_error_rate (cfg : Config) (now : ℚ) (st : WatcherState) :
    WatcherState × List Alert × List Alert :=
  if st.request_window.length < 20 then (st, [], [])
  else
    let total := st.request_window.length
    let errors := countTrue st.request_window
    if rateQ st.request_window > cfg.error_threshold then
      let cand := Alert.error_rate errors total
      let r := sendAlert cfg .error_rate now st
      (r.1, [cand], if r.2 then [cand] else [])
    else (st, [], [])

/-- The `if pool: self.check_failover(pool)` guard at line 173: an empty
(falsy) pool skips the failover check entirely. -/
def failoverStage (cfg : Config) (now : ℚ) (pool : List Char) (st : WatcherState) :
    WatcherState × List Alert × List Alert :=
  if pool ≠ [] then check_failover cfg now pool st else (st, [], [])

/-- The body of the `tail_log` loop (lines 161-178) for one line, at time
`now`, on the two non-fatal parse outcomes: a line on which `json.loads`
raises `JSONDecodeError` (`none`) is caught at line 177 and skipped with no
effect; on a JSON object the fields are extracted, `had_error` is appended
to the rolling window, then the failover stage and the error-rate check run
in order. The third, fatal outcome (valid non-object JSON) is modelled by
`stepLine` below. Returns the new state, the candidate alerts, and the
dispatched alerts. -/
def processLine (cfg : Config) (now : ℚ) (line : Option LogEntry) (st : WatcherState) :
    WatcherState × List Alert × List Alert :=
  match line with
  | none => (st, [], [])
  | some entry =>
    let pool := entry.pool.getD []
    let had_error := hadErrorField entry.upstream_status
    let st1 := { st with request_window := pushWindow cfg.window_size st.request_window had_error }
    let r2 := failoverStage cfg now pool st1
    let r3 := check_error_rate cfg now r2.1
    (r3.1, r2.2.1 ++ r3.2.1, r2.2.2 ++ r3.2.2)

/-- The `tail_log` loop over a finite list of timestamped parse results,
accumulating candidate and dispatched alerts in order. -/
def processLines (cfg : Config) : WatcherState → List (ℚ × Option LogEntry) →
    WatcherState × List Alert × List Alert
  | st, [] => (st, [], [])
  | st, (t, l) :: rest =>
    let r1 := processLine cfg t l st
    let r2 := processLines cfg r1.1 rest
    (r2.1, r1.2.1 ++ r2.2.1, r1.2.2 ++ r2.2.2)

/-- Modelled from the spec: the result classification of
`PoolTracker.observe` (section 4.2) — `Initial` on the first non-empty pool,
`NoChange` for an empty pool or the unchanged pool, `Transition(old, new)`
otherwise. -/
inductive TransitionResult where
  | Initial (pool : List Char)
  | NoChange
  | Transition (old new_ : List Char)
deriving DecidableEq

/-- Modelled from the spec: `PoolTracker.observe` (section 4.2). An empty
pool value yields `NoChange` and is never applied; an unset tracked pool is
set by a non-empty value, yielding `Initial`; an equal value yields
`NoChange`; a differing non-empty value updates the tracked pool and yields
`Transition(old, new)`. Returns the new tracked pool and the result. -/
def specObserve (last : Option (List Char)) (pool : List Char) :
    Option (List Char) × TransitionResult :=
  if pool = [] then (last, .NoChange)
  else
    match last with
    | none => (some pool, .Initial pool)
    | some lp =>
      if pool = lp then (last, .NoChange)
      else (some pool, .Transition lp pool)

/-- The candidate failover alerts a pool-tracker result gives rise to:
exactly one for a `Transition`, none otherwise. -/
def candsOf : TransitionResult → List Alert
  | .Transition a b => [Alert.failover a b]
  | _ => []

/-- The three outcomes of `json.loads(line.strip())` at line 162:
`malformed` — the call raises `json.JSONDecodeError`, caught at line 177;
`nonObject` — the call succeeds but returns a non-dict value (the line was,
say, `5`, `"x"`, `[1]`, `true` or `null`), so the following
`log_entry.get('pool', '')` raises `AttributeError`; `record` — the call
returns a dict, read into a `LogEntry`. -/
inductive ParsedLine where
  | malformed
  | nonObject
  | record (e : LogEntry)

/-- One iteration of the `tail_log` loop over the full parse boundary: a
`malformed` line is caught by `except json.JSONDecodeError: continue` and
skipped; a `nonObject` line raises `AttributeError` inside the `try` block,
which that handler does not catch — the exception escapes the `while` loop
to the outer handler at lines 182-184, which logs and re-raises, killing the
watcher (`Except.error ()`); a `record` line is processed as in
`processLine`. -/
def stepLine (cfg : Config) (now : ℚ) (l : ParsedLine) (st : WatcherState) :
    Except Unit (WatcherState × List Alert × List Alert) :=
  match l with
  | .malformed => .ok (st, [], [])
  | .nonObject => .error ()
  | .record e => .ok (processLine cfg now (some e) st)

/-- The `tail_log` loop over a finite list of timestamped parse outcomes:
alerts accumulate in order until a line aborts the loop, in which case the
whole run is the abort. -/
def processLinesE (cfg : Config) : WatcherState → List (ℚ × ParsedLine) →
    Except Unit (WatcherState × List Alert × List Alert)
  | st, [] => .ok (st, [], [])
  | st, (t, l) :: rest =>
    match stepLine cfg t l st with
    | .error e => .error e
    | .ok r1 =>
      match processLinesE cfg r1.1 rest with
      | .error e => .error e
      | .ok r2 => .ok (r2.1, r1.2.1 ++ r2.2.1, r1.2.2 ++ r2.2.2)

/-- The non-fatal parse outcomes, embedded into the full boundary. -/
def liftLine : Option LogEntry → ParsedLine
  | none => .malformed
  | some e => .record e

/-- A maintenance-mode configuration used for concrete instantiations. -/
def cfgM : Config := ⟨2, 200, 300, true⟩

/-- `send_slack_alert` factors into the pure gate decision followed by
recording the firing exactly when the gate says fire. -/
lemma sendAlert_gate_eq (cfg : Config) (kind : AlertKind) (now : ℚ) (st : WatcherState) :
    sendAlert cfg kind now st =
      if shouldFire cfg (lastOf kind st) now then (recordFiring kind now st, true)
      else (st, false) := by
  cases kind with
  | failover =>
    by_cases hm : cfg.maintenance_mode
    · simp [sendAlert, shouldFire, hm]
    · by_cases hc : now - st.last_failover_alert < cfg.cooldown_sec
      · simp [sendAlert, shouldFire, lastOf, recordFiring, hm, hc, not_le.mpr hc]
      · simp [sendAlert, shouldFire, lastOf, recordFiring, hm, hc, not_lt.mp hc]
  | error_rate =>
    by_cases hm : cfg.maintenance_mode
    · simp [sendAlert, shouldFire, hm]
    · by_cases hc : now - st.last_error_rate_alert < cfg.cooldown_sec
      · simp [sendAlert, shouldFire, lastOf, recordFiring, hm, hc, not_le.mpr hc]
      · simp [sendAlert, shouldFire, lastOf, recordFiring, hm, hc, not_lt.mp hc]

/-- C2: for every observed pool value, the code's failover stage follows the
PoolTracker rule: the first non-empty pool sets the tracked pool with no
alert candidate (`Initial`); an empty pool or the unchanged pool leaves the
tracked pool unchanged with no candidate (`NoChange`); a differing non-empty
pool updates the tracked pool and produces exactly one failover candidate
carrying the previous and current pool (`Transition`). -/
theorem failover_stage_refines_pool_tracker :
    ∀ (cfg : Config) (now : ℚ) (pool : List Char) (st : WatcherState),
      (failoverStage cfg now pool st).1.last_pool = (specObserve st.last_pool pool).1 ∧
      (failoverStage cfg now pool st).2.1 = candsOf (specObserve st.last_pool pool).2 := by
  intro cfg now pool st
  by_cases hp : pool = []
  · simp [failoverStage, specObserve, hp, candsOf]
  · cases hlp : st.last_pool with
    | none => simp [failoverStage, check_failover, specObserve, hp, hlp, candsOf]
    | some lp =>
      by_cases he : pool = lp
      · simp [failoverStage, check_failover, specObserve, hp, hlp, he, candsOf]
      · simp [failoverStage, check_failover, specObserve, hp, hlp, he, candsOf]

/-- C3: recording a firing of a kind at `t0` sets that kind's timestamp to
`t0`; the gate decision is true exactly when maintenance mode is off and
`now` has reached `t0 + cooldown_sec` (so it is false for every
`now < t0 + cooldown_sec` and true from `t0 + cooldown_sec` on); under
maintenance mode it is false regardless; and `send_slack_alert` dispatches
exactly according to this gate decision on the kind's stored timestamp. -/
theorem alert_gate_cooldown_semantics :
    ∀ (cfg : Config) (t0 now : ℚ) (kind : AlertKind) (st : WatcherState),
      lastOf kind (recordFiring kind t0 st) = t0 ∧
      (shouldFire cfg t0 now = true ↔
        (cfg.maintenance_mode = false ∧ t0 + cfg.cooldown_sec ≤ now)) ∧
      shouldFire { cfg with maintenance_mode := true } t0 now = false ∧
      (sendAlert cfg kind now st).2 = shouldFire cfg (lastOf kind st) now := by
  intro cfg t0 now kind st
  refine ⟨by cases kind <;> rfl, ?_, by simp [shouldFire], ?_⟩
  · by_cases hm : cfg.maintenance_mode
    · simp [shouldFire, hm]
    · by_cases hc : now - t0 < cfg.cooldown_sec
      · simp only [shouldFire, hm, if_false, hc, if_true, Bool.ite_eq_true_distrib]
        constructor
        · intro h
          simp at h
        · rintro ⟨-, h⟩
          linarith
      · simp only [shouldFire, hm, if_false, hc, Bool.ite_eq_true_distrib]
        constructor
        · intro _
          refine ⟨by simp [hm], by linarith [not_lt.mp hc]⟩
        · intro _
          simp
  · rw [sendAlert_gate_eq]
    by_cases h : shouldFire cfg (lastOf kind st) now <;> simp [h]

/-- C9: `send_slack_alert` equals the pure gate decision followed by
recording the firing timestamp only on an actual dispatch; in particular a
suppressed candidate (gate false, whether by maintenance mode or an
unelapsed cooldown) leaves the whole watcher state unchanged and dispatches
nothing. -/
theorem suppressed_alert_no_side_effect :
    (∀ (cfg : Config) (kind : AlertKind) (now : ℚ) (st : WatcherState),
        sendAlert cfg kind now st =
          if shouldFire cfg (lastOf kind st) now then (recordFiring kind now st, true)
          else (st, false)) ∧
    (∀ (cfg : Config) (kind : AlertKind) (now : ℚ) (st : WatcherState),
        shouldFire cfg (lastOf kind st) now = false →
          sendAlert cfg kind now st = (st, false)) := by
  refine ⟨fun cfg kind now st => sendAlert_gate_eq cfg kind now st, ?_⟩
  intro cfg kind now st h
  rw [sendAlert_gate_eq, h]
  simp

/-- Witness for C9: under maintenance mode the gate is false at a concrete
input, and the dispatcher indeed returns the state unchanged. -/
theorem suppressed_alert_no_side_effect_witness :
    sendAlert cfgM .failover 5 initSt = (initSt, false) :=
  suppressed_alert_no_side_effect.2 cfgM .failover 5 initSt (by decide)

/-- A single `deque(maxlen=cap)` append never leaves more than `cap`
elements. -/
lemma pushWindow_length_le (cap : ℕ) (w : List Bool) (x : Bool) :
    (pushWindow cap w x).length ≤ cap := by
  simp [pushWindow]
  omega

/-- Folding pushes over a window of legal size keeps the size legal. -/
lemma foldl_pushWindow_length_le (cap : ℕ) (xs : List Bool) :
    ∀ w : List Bool, w.length ≤ cap →
      (xs.foldl (fun w x => pushWindow cap w x) w).length ≤ cap := by
  induction xs with
  | nil => intro w h; simpa using h
  | cons x xs ih =>
    intro w _
    simpa using ih (pushWindow cap w x) (pushWindow_length_le cap w x)

/-- C4: for every sequence of pushes starting from the empty window the size
never exceeds the capacity, and a push at capacity (capacity at least 1)
appends the new element and evicts exactly the oldest one, keeping the
remaining elements in order. -/
theorem rolling_window_capacity_fifo :
    (∀ (cap : ℕ) (xs : List Bool),
        (xs.foldl (fun w x => pushWindow cap w x) []).length ≤ cap) ∧
    (∀ (cap : ℕ) (w : List Bool) (x : Bool), 1 ≤ cap → w.length = cap →
        pushWindow cap w x = w.drop 1 ++ [x]) := by
  constructor
  · intro cap xs
    exact foldl_pushWindow_length_le cap xs [] (by simp)
  · intro cap w x hcap hw
    have h1 : w.length + 1 - cap = 1 := by omega
    have h2 : (1 : ℕ) ≤ w.length := by omega
    rw [pushWindow, h1, List.drop_append_of_le_length h2]

/-- Witness for C4: pushing onto a full two-element window drops the front
element and appends the new one at the back. -/
theorem rolling_window_capacity_fifo_witness :
    pushWindow 2 [true, false] true = [true, false].drop 1 ++ [true] :=
  rolling_window_capacity_fifo.2 2 [true, false] true (by decide) (by decide)

/-- C5: on a window of positive length `n` holding `k` true entries the
computed rate equals `100 * k / n`; and `check_error_rate` never evaluates
the rate on an empty window — it returns immediately with no candidate. -/
theorem rate_formula :
    (∀ w : List Bool, 0 < w.length →
        rateQ w = 100 * (countTrue w : ℚ) / (w.length : ℚ)) ∧
    (∀ (cfg : Config) (now : ℚ) (st : WatcherState), st.request_window.length = 0 →
        check_error_rate cfg now st = (st, [], [])) := by
  constructor
  · intro w _
    rw [rateQ]
    ring
  · intro cfg now st h
    have : st.request_window.length < 20 := by omega
    simp [check_error_rate, this]

/-- Witness for C5: a two-element window with one error rates at 50 percent,
and the freshly initialized watcher state has an empty window on which the
error-rate check does nothing. -/
theorem rate_formula_witness :
    rateQ [true, false] = 100 * ((countTrue [true, false] : ℕ) : ℚ) /
        (([true, false] : List Bool).length : ℚ) ∧
    check_error_rate cfgM 0 initSt = (initSt, [], []) :=
  ⟨rate_formula.1 [true, false] (by decide), rate_formula.2 cfgM 0 initSt (by decide)⟩

/-- On streams free of non-object JSON lines the full-boundary loop never
aborts and agrees with `processLines`, which therefore models those streams
faithfully. -/
lemma processLinesE_lift (cfg : Config) :
    ∀ (ls : List (ℚ × Option LogEntry)) (st : WatcherState),
      processLinesE cfg st (ls.map (fun p => (p.1, liftLine p.2))) =
        Except.ok (processLines cfg st ls) := by
  intro ls
  induction ls with
  | nil => intro st; rfl
  | cons p ls ih =>
    intro st
    obtain ⟨t, l⟩ := p
    cases l with
    | none =>
      show processLinesE cfg st
          ((t, ParsedLine.malformed) :: List.map (fun p => (p.1, liftLine p.2)) ls) = _
      simp only [processLinesE, stepLine]
      rw [ih st]
      simp [processLines, processLine]
    | some e =>
      show processLinesE cfg st
          ((t, ParsedLine.record e) :: List.map (fun p => (p.1, liftLine p.2)) ls) = _
      simp only [processLinesE, stepLine]
      rw [ih]
      simp [processLines]

/-- C8: `had_error` is true exactly when some comma-space separated token of
the `upstream_status` value is non-blank and starts with the character `5`;
an absent field gives `had_error = false`; `200` is not an error while
`502, 200` is. -/
theorem upstream_status_error_detection :
    (∀ v : List Char, hadErrorOf v = true ↔
        ∃ s ∈ pySplitCS v, pyStripTruthy s = true ∧ startsWith5 s = true) ∧
    hadErrorField none = false ∧
    hadErrorOf ("200".toList) = false ∧
    hadErrorOf ("502, 200".toList) = true := by
  refine ⟨?_, by decide, by decide, by decide⟩
  intro v
  by_cases h : v = []
  · subst h
    constructor
    · intro hcontra
      simp [hadErrorOf] at hcontra
    · rintro ⟨s, hs, h1, h2⟩
      simp [pySplitCS] at hs
      subst hs
      simp [pyStripTruthy] at h1
  · simp [hadErrorOf, h, List.any_eq_true, Bool.and_eq_true]

/-- A value without the comma-space separator splits into the single token
holding the whole value. -/
lemma split_single_of_no_sep :
    ∀ v : List Char, containsCS v = false → pySplitCS v = [v] := by
  intro v
  induction v with
  | nil => intro _; rfl
  | cons c rest ih =>
    intro h
    cases rest with
    | nil => rfl
    | cons c2 rest2 =>
      simp only [containsCS, Bool.or_eq_false_iff] at h
      have hne : ¬(c = ',' ∧ c2 = ' ') := by
        intro hcc
        rw [hcc.1, hcc.2] at h
        simp at h
      have hs := ih h.2
      rw [pySplitCS, if_neg hne, hs]

/-- C10: a value in which codes are joined by a bare comma (no following
space) is treated as one single token, so `had_error` reduces to whether the
whole value is non-blank and starts with `5`; in particular `200,502` is not
flagged as an error even though it contains a 5xx code, while `502,200` is. -/
theorem comma_without_space_single_token :
    (∀ v : List Char, containsCS v = false →
        pySplitCS v = [v] ∧
        hadErrorOf v = (pyStripTruthy v && startsWith5 v)) ∧
    hadErrorOf ("200,502".toList) = false ∧
    hadErrorOf ("502,200".toList) = true := by
  refine ⟨?_, by decide, by decide⟩
  intro v h
  have hs := split_single_of_no_sep v h
  refine ⟨hs, ?_⟩
  by_cases hv : v = []
  · subst hv
    simp [hadErrorOf, pyStripTruthy]
  · simp [hadErrorOf, hv, hs]

/-- Witness for C10: the value `200,502` contains no comma-space separator,
stays one token, and its error flag is decided by its first character alone. -/
theorem comma_without_space_single_token_witness :
    pySplitCS ("200,502".toList) = [("200,502".toList)] ∧
    hadErrorOf ("200,502".toList) =
      (pyStripTruthy ("200,502".toList) && startsWith5 ("200,502".toList)) :=
  comma_without_space_single_token.1 ("200,502".toList) (by decide)

/-- The end-to-end scenario configuration: threshold 2 percent, window 200,
cooldown 300 seconds, maintenance off — the source's defaults. -/
def cfgScn : Config := ⟨2, 200, 300, false⟩

/-- A log record on pool `blue` whose single upstream attempt failed
with a 502. -/
def evErr : LogEntry := ⟨some ("blue".toList), some ("502".toList)⟩

/-- A log record on pool `blue` whose single upstream attempt succeeded
with a 200. -/
def evOK : LogEntry := ⟨some ("blue".toList), some ("200".toList)⟩

/-- The first `n` of a stream of well-formed one-second-apart events on a
fixed pool in which exactly the first event is a 5xx: feeding 20 of them
yields exactly 1 error among 20 samples, a 5 percent rate. -/
def scnLines (n : ℕ) : List (ℚ × Option LogEntry) :=
  (List.range n).map (fun i => (((1000 + i : ℕ) : ℚ), some (if i = 0 then evErr else evOK)))

section RatKernelEval

attribute [local semireducible] Rat.sub Rat.add Rat.mul Rat.inv

/-- C1: the error-rate check yields no candidate while the window holds
fewer than 20 samples; from 20 samples on it yields a candidate exactly when
the window's rate strictly exceeds the threshold; and in the concrete
scenario of 1 error among 20 events at threshold 2 percent, no alert is
dispatched over the first 19 events, exactly one error-rate alert (1 error,
20 requests) is dispatched on the 20th, and a 21st identical-shape event
inside the cooldown window adds no second alert. -/
theorem error_rate_min_sample_and_scenario :
    (∀ (cfg : Config) (now : ℚ) (st : WatcherState), st.request_window.length < 20 →
        (check_error_rate cfg now st).2.1 = []) ∧
    (∀ (cfg : Config) (now : ℚ) (st : WatcherState), 20 ≤ st.request_window.length →
        ((check_error_rate cfg now st).2.1 ≠ [] ↔
          rateQ st.request_window > cfg.error_threshold)) ∧
    (processLines cfgScn initSt (scnLines 19)).2.2 = [] ∧
    (processLines cfgScn initSt (scnLines 20)).2.2 = [Alert.error_rate 1 20] ∧
    (processLines cfgScn initSt (scnLines 21)).2.2 = [Alert.error_rate 1 20] := by
  refine ⟨?_, ?_, by decide, by decide, by decide⟩
  · intro cfg now st h
    simp [check_error_rate, h]
  · intro cfg now st h
    have h2 : ¬ st.request_window.length < 20 := by omega
    by_cases hr : rateQ st.request_window > cfg.error_threshold
    · simp [check_error_rate, h2, hr]
    · simp [check_error_rate, h2, hr]

/-- A watcher state whose window already holds 20 error-free samples. -/
def st20 : WatcherState := ⟨none, List.replicate 20 false, 0, 0⟩

/-- Witness for C1: on the empty initial window the check yields no
candidate, and on a full 20-sample window the candidate condition is the
rate/threshold comparison. -/
theorem error_rate_min_sample_and_scenario_witness :
    (check_error_rate cfgScn 0 initSt).2.1 = [] ∧
    ((check_error_rate cfgScn 0 st20).2.1 ≠ [] ↔
      rateQ st20.request_window > cfgScn.error_threshold) :=
  ⟨error_rate_min_sample_and_scenario.1 cfgScn 0 initSt (by decide),
   error_rate_min_sample_and_scenario.2.1 cfgScn 0 st20 (by decide)⟩

/-- Counterexample to C6: with maintenance mode off and the failover
timestamp still at its initial value 0 — the sentinel for "never fired" —
the very first qualifying alert at time 100 is nevertheless suppressed,
because the code's cooldown test `now - 0 < 300` cannot tell the sentinel
from a real firing at epoch 0. -/
theorem first_alert_cooldown_counterexample :
    cfgScn.maintenance_mode = false ∧
    lastOf .failover initSt = 0 ∧
    (sendAlert cfgScn .failover 100 initSt).2 = false := by decide

/-- C6 (amended): with maintenance mode off and a kind's timestamp still at
the sentinel 0, the first qualifying alert of that kind is dispatched
whenever `now` is at least `cooldown_sec` — which holds for every realistic
wall-clock timestamp, `time.time()` being far larger than any cooldown. -/
theorem first_alert_dispatched_from_sentinel :
    ∀ (cfg : Config) (kind : AlertKind) (now : ℚ) (st : WatcherState),
      cfg.maintenance_mode = false → lastOf kind st = 0 → cfg.cooldown_sec ≤ now →
      (sendAlert cfg kind now st).2 = true := by
  intro cfg kind now st hm h0 hc
  rw [sendAlert_gate_eq, h0]
  have hgate : shouldFire cfg 0 now = true := by
    simp [shouldFire, hm, not_lt.mpr hc]
  rw [hgate]
  simp

/-- Witness for C6 (amended): at time 1000 with cooldown 300 the first
failover alert from the initial state is dispatched. -/
theorem first_alert_dispatched_from_sentinel_witness :
    cfgScn.maintenance_mode = false ∧ lastOf .failover initSt = 0 ∧
    cfgScn.cooldown_sec ≤ (1000 : ℚ) ∧
    (sendAlert cfgScn .failover 1000 initSt).2 = true :=
  ⟨by decide, by decide, by decide,
   first_alert_dispatched_from_sentinel cfgScn .failover 1000 initSt
     (by decide) (by decide) (by decide)⟩

end RatKernelEval

/-- C7: a line on which `json.loads` raises `JSONDecodeError` is indeed
silently skipped — deleting it from the stream changes nothing — but a line
holding valid JSON that is not an object (such as the line `5`) is not: the
`AttributeError` from `log_entry.get` escapes the `except
json.JSONDecodeError` handler and the re-raise at line 184 aborts the whole
run wherever the line occurs, so no later line is ever processed; the claim
that no malformed line ever aborts ingestion fails on the code. -/
theorem non_object_json_line_aborts_ingestion :
    (∀ (cfg : Config) (st : WatcherState) (t : ℚ)
        (ls1 ls2 : List (ℚ × ParsedLine)),
        processLinesE cfg st (ls1 ++ (t, ParsedLine.malformed) :: ls2) =
          processLinesE cfg st (ls1 ++ ls2)) ∧
    (∀ (cfg : Config) (st : WatcherState) (t : ℚ)
        (ls1 ls2 : List (ℚ × ParsedLine)),
        processLinesE cfg st (ls1 ++ (t, ParsedLine.nonObject) :: ls2) =
          Except.error ()) ∧
    processLinesE cfgScn initSt
      [(1000, ParsedLine.record evOK), (1001, ParsedLine.nonObject),
       (1002, ParsedLine.record evOK)] = Except.error () := by
  refine ⟨?_, ?_, rfl⟩
  · intro cfg st t ls1 ls2
    induction ls1 generalizing st with
    | nil =>
      cases h : processLinesE cfg st ls2 with
      | error e => simp [processLinesE, stepLine, h]
      | ok r2 => simp [processLinesE, stepLine, h]
    | cons p ls1 ih =>
      obtain ⟨t1, l1⟩ := p
      cases h1 : stepLine cfg t1 l1 st with
      | error e => simp [processLinesE, h1]
      | ok r1 => simp [processLinesE, h1, ih]
  · intro cfg st t ls1 ls2
    induction ls1 generalizing st with
    | nil => simp [processLinesE, stepLine]
    | cons p ls1 ih =>
      obtain ⟨t1, l1⟩ := p
      cases h1 : stepLine cfg t1 l1 st with
      | error e => simp [processLinesE, h1]
      | ok r1 => simp [processLinesE, h1, ih]
